import Mathlib

/-!
Verification of the orchestration core of the tiktoklive_monitor repository
(stability tracking, status polling, and the recording lifecycle manager),
via a shallow embedding of the Python sources into Lean.

Python dicts keyed by usernames are modelled as association lists with
unique keys and insertion-order semantics; wall-clock times are modelled as
integer seconds; external collaborators (the TikTokLive client, the video
handler, the CSV sinks) are modelled by outcome parameters that select which
of their documented results occurs.
-/

set_option maxHeartbeats 1000000

namespace TikTokMon

/-! ### Association-list model of a Python `dict` with string keys -/

/-- Python dict membership `k in d`. -/
def dmem (k : String) : List (String × α) → Bool
  | [] => false
  | p :: tl => p.1 == k || dmem k tl

/-- Python dict lookup `d.get(k)`. -/
def dget? (k : String) : List (String × α) → Option α
  | [] => none
  | p :: tl => if p.1 == k then some p.2 else dget? k tl

/-- Python dict assignment `d[k] = v`: replace in place if present, else append. -/
def dset (k : String) (v : α) : List (String × α) → List (String × α)
  | [] => [(k, v)]
  | p :: tl => if p.1 == k then (k, v) :: tl else p :: dset k v tl

/-- Python dict deletion `del d[k]` (callers always guard on membership). -/
def ddel (k : String) : List (String × α) → List (String × α)
  | [] => []
  | p :: tl => if p.1 == k then ddel k tl else p :: ddel k tl

/-- The key list of a dict. -/
def dkeys (d : List (String × α)) : List String :=
  d.map (fun p => p.1)

theorem dget?_eq_none_of_not_mem {k : String} {d : List (String × α)}
    (h : dmem k d = false) : dget? k d = none := by
  induction d with
  | nil => rfl
  | cons p tl ih =>
    by_cases hp : p.1 = k
    · simp [dmem, hp] at h
    · simp [dmem, hp] at h
      simp [dget?, hp, ih h]

theorem dmem_eq_true_of_get {k : String} {d : List (String × α)} {v : α}
    (h : dget? k d = some v) : dmem k d = true := by
  cases hm : dmem k d
  · rw [dget?_eq_none_of_not_mem hm] at h
    exact Option.noConfusion h
  · rfl

theorem dget?_dset_self (k : String) (v : α) (d : List (String × α)) :
    dget? k (dset k v d) = some v := by
  induction d with
  | nil => simp [dset, dget?]
  | cons p tl ih =>
    by_cases hp : p.1 = k
    · simp [dset, dget?, hp]
    · simp [dset, dget?, hp, ih]

theorem dget?_dset_other {k k' : String} (hne : k' ≠ k) (v : α) (d : List (String × α)) :
    dget? k' (dset k v d) = dget? k' d := by
  induction d with
  | nil => simp [dset, dget?, Ne.symm hne]
  | cons p tl ih =>
    by_cases hp : p.1 = k
    · have hp' : p.1 ≠ k' := by rw [hp]; exact Ne.symm hne
      simp [dset, dget?, hp, hp', Ne.symm hne]
    · by_cases hp' : p.1 = k'
      · simp [dset, dget?, hp, hp', hne, ih]
      · simp [dset, dget?, hp, hp', ih]

theorem dmem_dset_self (k : String) (v : α) (d : List (String × α)) :
    dmem k (dset k v d) = true :=
  dmem_eq_true_of_get (dget?_dset_self k v d)

theorem dmem_dset_other {k k' : String} (hne : k' ≠ k) (v : α) (d : List (String × α)) :
    dmem k' (dset k v d) = dmem k' d := by
  induction d with
  | nil => simp [dset, dmem, Ne.symm hne]
  | cons p tl ih =>
    by_cases hp : p.1 = k
    · have hp' : p.1 ≠ k' := by rw [hp]; exact Ne.symm hne
      simp [dset, dmem, hp, hp', Ne.symm hne]
    · simp [dset, dmem, hp, ih]

theorem dmem_ddel_self (k : String) (d : List (String × α)) :
    dmem k (ddel k d) = false := by
  induction d with
  | nil => rfl
  | cons p tl ih =>
    by_cases hp : p.1 = k
    · simp [ddel, hp, ih]
    · simp [ddel, dmem, hp, ih]

theorem dmem_ddel_other {k k' : String} (hne : k' ≠ k) (d : List (String × α)) :
    dmem k' (ddel k d) = dmem k' d := by
  induction d with
  | nil => rfl
  | cons p tl ih =>
    by_cases hp : p.1 = k
    · have hp' : p.1 ≠ k' := by rw [hp]; exact Ne.symm hne
      simp [ddel, dmem, hp, hp', Ne.symm hne, ih]
    · simp [ddel, dmem, hp, ih]

theorem ddel_dset_self (k : String) (v : α) (d : List (String × α)) :
    ddel k (dset k v d) = ddel k d := by
  induction d with
  | nil => simp [dset, ddel]
  | cons p tl ih =>
    by_cases hp : p.1 = k
    · simp [dset, ddel, hp]
    · simp [dset, ddel, hp, ih]

theorem ddel_of_not_mem {k : String} {d : List (String × α)}
    (h : dmem k d = false) : ddel k d = d := by
  induction d with
  | nil => rfl
  | cons p tl ih =>
    by_cases hp : p.1 = k
    · simp [dmem, hp] at h
    · simp [dmem, hp] at h
      simp [ddel, hp, ih h]

theorem dget?_ddel_other {k k' : String} (hne : k' ≠ k) (d : List (String × α)) :
    dget? k' (ddel k d) = dget? k' d := by
  induction d with
  | nil => rfl
  | cons p tl ih =>
    by_cases hp : p.1 = k
    · have hp' : p.1 ≠ k' := by rw [hp]; exact Ne.symm hne
      simp [ddel, dget?, hp, hp', Ne.symm hne, ih]
    · simp [ddel, dget?, hp, ih]

theorem length_dset_of_mem {k : String} {d : List (String × α)} (h : dmem k d = true)
    (v : α) : (dset k v d).length = d.length := by
  induction d with
  | nil => simp [dmem] at h
  | cons p tl ih =>
    by_cases hp : p.1 = k
    · simp [dset, hp]
    · simp [dmem, hp] at h
      simp [dset, hp, ih h]

theorem length_dset_of_not_mem {k : String} {d : List (String × α)} (h : dmem k d = false)
    (v : α) : (dset k v d).length = d.length + 1 := by
  induction d with
  | nil => simp [dset]
  | cons p tl ih =>
    by_cases hp : p.1 = k
    · simp [dmem, hp] at h
    · simp [dmem, hp] at h
      simp [dset, hp, ih h]

theorem length_ddel_le (k : String) (d : List (String × α)) :
    (ddel k d).length ≤ d.length := by
  induction d with
  | nil => simp [ddel]
  | cons p tl ih =>
    by_cases hp : p.1 = k
    · simp [ddel, hp]
      exact Nat.le_succ_of_le ih
    · simp [ddel, hp]
      exact ih

/-- Every stored value satisfies `P` after a `dset` whose new value does. -/
theorem dset_forall {P : α → Prop} {d : List (String × α)}
    (hd : ∀ p ∈ d, P p.2) {k : String} {v : α} (hv : P v) :
    ∀ p ∈ dset k v d, P p.2 := by
  induction d with
  | nil =>
    intro p hp
    simp [dset] at hp
    rw [hp]
    exact hv
  | cons q tl ih =>
    intro p hp
    by_cases hq : q.1 = k
    · simp [dset, hq] at hp
      rcases hp with hp | hp
      · rw [hp]; exact hv
      · exact hd p (by simp [hp])
    · simp [dset, hq] at hp
      rcases hp with hp | hp
      · rw [hp]; exact hd q (by simp)
      · exact ih (fun r hr => hd r (by simp [hr])) p hp

theorem ddel_forall {P : α → Prop} {d : List (String × α)}
    (hd : ∀ p ∈ d, P p.2) (k : String) :
    ∀ p ∈ ddel k d, P p.2 := by
  induction d with
  | nil => intro p hp; simp [ddel] at hp
  | cons q tl ih =>
    intro p hp
    by_cases hq : q.1 = k
    · simp [ddel, hq] at hp
      exact ih (fun r hr => hd r (by simp [hr])) p hp
    · simp [ddel, hq] at hp
      rcases hp with hp | hp
      · rw [hp]; exact hd q (by simp)
      · exact ih (fun r hr => hd r (by simp [hr])) p hp

theorem dkeys_dset_of_mem {k : String} {d : List (String × α)} (h : dmem k d = true)
    (v : α) : dkeys (dset k v d) = dkeys d := by
  induction d with
  | nil => simp [dmem] at h
  | cons p tl ih =>
    by_cases hp : p.1 = k
    · simp [dset, hp, dkeys]
    · simp [dmem, hp] at h
      simp [dset, hp, dkeys]
      simpa [dkeys] using ih h

theorem dkeys_dset_of_not_mem {k : String} {d : List (String × α)} (h : dmem k d = false)
    (v : α) : dkeys (dset k v d) = dkeys d ++ [k] := by
  induction d with
  | nil => simp [dset, dkeys]
  | cons p tl ih =>
    by_cases hp : p.1 = k
    · simp [dmem, hp] at h
    · simp [dmem, hp] at h
      simp [dset, hp, dkeys]
      simpa [dkeys] using ih h

theorem dmem_iff {k : String} {d : List (String × α)} :
    dmem k d = true ↔ ∃ p ∈ d, p.1 = k := by
  induction d with
  | nil => simp [dmem]
  | cons p tl ih =>
    by_cases hp : p.1 = k
    · simp [dmem, hp]
    · simp [dmem, hp, ih]

theorem dkeys_ddel (k : String) (d : List (String × α)) :
    dkeys (ddel k d) = (dkeys d).filter (fun x => x != k) := by
  induction d with
  | nil => rfl
  | cons p tl ih =>
    by_cases hp : p.1 = k
    · simpa [ddel, dkeys, List.filter_cons, hp] using ih
    · simpa [ddel, dkeys, List.filter_cons, hp] using ih

theorem dkeys_nodup_dset {k : String} {v : α} {d : List (String × α)}
    (h : (dkeys d).Nodup) : (dkeys (dset k v d)).Nodup := by
  cases hm : dmem k d
  · rw [dkeys_dset_of_not_mem hm]
    refine List.Nodup.append h (List.nodup_singleton k) ?_
    intro x hx hx'
    simp at hx'
    rw [hx'] at hx
    rcases List.mem_map.mp hx with ⟨p, hp, hpk⟩
    have : dmem k d = true := dmem_iff.mpr ⟨p, hp, hpk⟩
    rw [hm] at this
    exact Bool.noConfusion this
  · rw [dkeys_dset_of_mem hm]
    exact h

theorem dkeys_nodup_ddel {k : String} {d : List (String × α)}
    (h : (dkeys d).Nodup) : (dkeys (ddel k d)).Nodup := by
  rw [dkeys_ddel]
  exact List.Nodup.filter _ h

theorem dget?_some_mem {k : String} {d : List (String × α)} {v : α}
    (h : dget? k d = some v) : (k, v) ∈ d := by
  induction d with
  | nil => simp [dget?] at h
  | cons p tl ih =>
    obtain ⟨a, b⟩ := p
    by_cases hp : a = k
    · simp [dget?, hp] at h
      subst hp
      subst h
      exact List.mem_cons_self _ _
    · simp [dget?, hp] at h
      exact List.mem_cons_of_mem _ (ih h)

/-- In a dict with unique keys, each key occurs at most once. -/
theorem count_le_one_of_nodup {d : List (String × α)} (h : (dkeys d).Nodup)
    (u : String) : (dkeys d).count u ≤ 1 :=
  List.nodup_iff_count_le_one.mp h u

/-! ### Stability Tracker (src/monitor/stability_tracker.py) -/

/-- The two settings read from `config['settings']` by `StabilityTracker.__init__`. -/
structure StabilityConfig where
  stability_threshold : Nat
  min_action_cooldown : Int
deriving Repr, DecidableEq

/-- One entry of `StabilityTracker.stream_stability` (the per-user dict built in
`track_stream_stability`). Times are integer seconds. -/
structure StabilityEntry where
  recent_checks : List (Int × Bool)
  last_action_time : Int
  consecutive_live : Nat
  consecutive_offline : Nat
  last_status : Option Bool
deriving Repr, DecidableEq

/-- The fresh record created on first observation of a user:
`last_action_time = now - timedelta(minutes=10)`, counters zero, no status. -/
def freshStabilityEntry (now : Int) : StabilityEntry :=
  { recent_checks := []
    last_action_time := now - 600
    consecutive_live := 0
    consecutive_offline := 0
    last_status := none }

/-- The record for `username` at the start of `track_stream_stability`
(existing entry, or the fresh record just inserted). -/
def stabEntry0 (st : List (String × StabilityEntry)) (u : String) (now : Int) :
    StabilityEntry :=
  match dget? u st with
  | some i => i
  | none => freshStabilityEntry now

/-- The record after the trim of `recent_checks` to the 10-minute window, the
append of the current check, the run-length counter update and the
`last_status` update — everything `track_stream_stability` does before the
decision block. -/
def stabEntry1 (st : List (String × StabilityEntry)) (u : String) (now : Int)
    (is_live : Bool) : StabilityEntry :=
  let i := stabEntry0 st u now
  let rc := (i.recent_checks.filter (fun p => now - p.1 < 600)) ++ [(now, is_live)]
  if is_live then
    { i with recent_checks := rc
             consecutive_offline := 0
             consecutive_live :=
               if i.last_status = some true then i.consecutive_live + 1 else 1
             last_status := some true }
  else
    { i with recent_checks := rc
             consecutive_live := 0
             consecutive_offline :=
               if i.last_status = some false then i.consecutive_offline + 1 else 1
             last_status := some false }

/-- The method `StabilityTracker.track_stream_stability(username, is_live, current_recording)`:
returns the decision and the updated `stream_stability` dict. -/
def trackStreamStability (cfg : StabilityConfig) (st : List (String × StabilityEntry))
    (now : Int) (u : String) (is_live current_recording : Bool) :
    Bool × List (String × StabilityEntry) :=
  let info := stabEntry1 st u now is_live
  if is_live && !current_recording then
    if cfg.stability_threshold ≤ info.consecutive_live then
      if cfg.min_action_cooldown ≤ now - info.last_action_time then
        (true, dset u { info with last_action_time := now } st)
      else
        (false, dset u info st)
    else
      (false, dset u info st)
  else
    (false, dset u info st)

/-- One observation fed to the tracker by the monitoring loop. -/
structure ObsCall where
  now : Int
  username : String
  is_live : Bool
  current_recording : Bool
deriving Repr, DecidableEq

/-- The tracker state after one observation. -/
def stabStep (cfg : StabilityConfig) (st : List (String × StabilityEntry))
    (c : ObsCall) : List (String × StabilityEntry) :=
  (trackStreamStability cfg st c.now c.username c.is_live c.current_recording).2

/-- The tracker state after a sequence of observations. -/
def runStability (cfg : StabilityConfig) (calls : List ObsCall)
    (st : List (String × StabilityEntry)) : List (String × StabilityEntry) :=
  calls.foldl (stabStep cfg) st

/-- The run-length counters of the updated record are never both non-zero. -/
theorem stabEntry1_counters (st : List (String × StabilityEntry)) (u : String)
    (now : Int) (is_live : Bool) :
    (stabEntry1 st u now is_live).consecutive_live = 0 ∨
      (stabEntry1 st u now is_live).consecutive_offline = 0 := by
  unfold stabEntry1
  by_cases h : is_live
  · right; simp [h]
  · left; simp [h]

/-- The second component of `trackStreamStability` is a `dset` of the updated
record; `last_action_time` is refreshed to `now` only when the cooldown test
passed. -/
theorem trackStreamStability_snd (cfg : StabilityConfig)
    (st : List (String × StabilityEntry)) (now : Int) (u : String)
    (is_live current_recording : Bool) :
    ∃ la : Int,
      (trackStreamStability cfg st now u is_live current_recording).2 =
        dset u { stabEntry1 st u now is_live with last_action_time := la } st ∧
      (la = (stabEntry1 st u now is_live).last_action_time ∨
        (la = now ∧
          cfg.min_action_cooldown ≤
            now - (stabEntry1 st u now is_live).last_action_time)) := by
  unfold trackStreamStability
  by_cases h1 : is_live && !current_recording
  · by_cases h2 : cfg.stability_threshold ≤ (stabEntry1 st u now is_live).consecutive_live
    · by_cases h3 : cfg.min_action_cooldown ≤ now - (stabEntry1 st u now is_live).last_action_time
      · exact ⟨now, by simp [h1, h2, h3], Or.inr ⟨rfl, h3⟩⟩
      · exact ⟨(stabEntry1 st u now is_live).last_action_time, by simp [h1, h2, h3], Or.inl rfl⟩
    · exact ⟨(stabEntry1 st u now is_live).last_action_time, by simp [h1, h2], Or.inl rfl⟩
  · exact ⟨(stabEntry1 st u now is_live).last_action_time, by simp [h1], Or.inl rfl⟩

/-- One tracker step preserves "counters never both non-zero" over all entries. -/
theorem stabStep_counters (cfg : StabilityConfig) {st : List (String × StabilityEntry)}
    (hd : ∀ p ∈ st, p.2.consecutive_live = 0 ∨ p.2.consecutive_offline = 0)
    (c : ObsCall) :
    ∀ p ∈ stabStep cfg st c,
      p.2.consecutive_live = 0 ∨ p.2.consecutive_offline = 0 := by
  rcases trackStreamStability_snd cfg st c.now c.username c.is_live c.current_recording
    with ⟨la, heq, _⟩
  unfold stabStep
  rw [heq]
  refine dset_forall
    (P := fun (i : StabilityEntry) =>
      i.consecutive_live = 0 ∨ i.consecutive_offline = 0) hd ?_
  have := stabEntry1_counters st c.username c.now c.is_live
  simpa using this

/-- C6 invariant over whole runs, from any state satisfying it. -/
theorem runStability_counters (cfg : StabilityConfig) (st : List (String × StabilityEntry))
    (hd : ∀ p ∈ st, p.2.consecutive_live = 0 ∨ p.2.consecutive_offline = 0)
    (calls : List ObsCall) :
    ∀ p ∈ runStability cfg calls st,
      p.2.consecutive_live = 0 ∨ p.2.consecutive_offline = 0 := by
  induction calls generalizing st with
  | nil => simpa [runStability] using hd
  | cons c cs ih =>
    have h1 := stabStep_counters cfg hd c
    simpa [runStability, List.foldl_cons] using ih _ h1

/-- C6: for every sequence of observe calls with any pattern of live/offline
samples, after each call no entry of the tracker has `consecutive_live` and
`consecutive_offline` simultaneously non-zero. -/
theorem c6_counters_exclusive (cfg : StabilityConfig) (calls : List ObsCall)
    (u : String) (i : StabilityEntry)
    (h : dget? u (runStability cfg calls []) = some i) :
    i.consecutive_live = 0 ∨ i.consecutive_offline = 0 := by
  have hall := runStability_counters cfg [] (by simp) calls
  have hmem := dget?_some_mem h
  simpa using hall (u, i) hmem

/-! ### C7: cooldown between start decisions -/

/-- The counter/status update does not touch `last_action_time`. -/
theorem stabEntry1_la (st : List (String × StabilityEntry)) (u : String) (now : Int)
    (is_live : Bool) :
    (stabEntry1 st u now is_live).last_action_time =
      (stabEntry0 st u now).last_action_time := by
  cases is_live <;> simp [stabEntry1]

/-- The entry for `u` exists and its `last_action_time` is at least `t`. -/
def lastActionGE (u : String) (t : Int) (st : List (String × StabilityEntry)) : Prop :=
  ∃ i, dget? u st = some i ∧ t ≤ i.last_action_time

/-- One tracker step preserves `lastActionGE` when the cooldown is non-negative. -/
theorem stabStep_lastActionGE {cfg : StabilityConfig}
    (h0 : 0 ≤ cfg.min_action_cooldown) {u : String} {t : Int}
    {st : List (String × StabilityEntry)} (hla : lastActionGE u t st) (c : ObsCall) :
    lastActionGE u t (stabStep cfg st c) := by
  rcases hla with ⟨i, hi, hit⟩
  rcases trackStreamStability_snd cfg st c.now c.username c.is_live c.current_recording
    with ⟨la, heq, hcase⟩
  unfold stabStep
  rw [heq]
  by_cases hu : c.username = u
  · subst hu
    refine ⟨_, dget?_dset_self _ _ _, ?_⟩
    have he0 : stabEntry0 st c.username c.now = i := by
      simp [stabEntry0, hi]
    have he1 : (stabEntry1 st c.username c.now c.is_live).last_action_time =
        i.last_action_time := by
      rw [stabEntry1_la, he0]
    rcases hcase with h | ⟨hnow, hcd⟩
    · simp only [h, he1]
      exact hit
    · simp only [hnow]
      rw [he1] at hcd
      omega
  · refine ⟨i, ?_, hit⟩
    rw [dget?_dset_other (fun hc => hu hc.symm)]
    exact hi

/-- Whole-run preservation of `lastActionGE`. -/
theorem runStability_lastActionGE {cfg : StabilityConfig}
    (h0 : 0 ≤ cfg.min_action_cooldown) {u : String} {t : Int}
    {st : List (String × StabilityEntry)} (hla : lastActionGE u t st)
    (calls : List ObsCall) : lastActionGE u t (runStability cfg calls st) := by
  induction calls generalizing st with
  | nil => simpa [runStability] using hla
  | cons c cs ih =>
    have h1 := stabStep_lastActionGE h0 hla c
    simpa [runStability, List.foldl_cons] using ih h1

/-- A true decision implies all three guards of the decision block passed. -/
theorem track_true_conds {cfg : StabilityConfig}
    {st : List (String × StabilityEntry)} {now : Int} {u : String}
    {is_live current_recording : Bool}
    (h : (trackStreamStability cfg st now u is_live current_recording).1 = true) :
    (is_live && !current_recording) = true ∧
      cfg.stability_threshold ≤ (stabEntry1 st u now is_live).consecutive_live ∧
      cfg.min_action_cooldown ≤ now - (stabEntry1 st u now is_live).last_action_time := by
  unfold trackStreamStability at h
  by_cases h1 : is_live && !current_recording
  · by_cases h2 : cfg.stability_threshold ≤ (stabEntry1 st u now is_live).consecutive_live
    · by_cases h3 : cfg.min_action_cooldown ≤ now - (stabEntry1 st u now is_live).last_action_time
      · exact ⟨h1, h2, h3⟩
      · simp [h1, h2, h3] at h
    · simp [h1, h2] at h
  · simp [h1] at h

/-- A true decision implies the cooldown test passed on the stored
`last_action_time`. -/
theorem track_true_cooldown {cfg : StabilityConfig}
    {st : List (String × StabilityEntry)} {now : Int} {u : String}
    {is_live current_recording : Bool}
    (h : (trackStreamStability cfg st now u is_live current_recording).1 = true) :
    cfg.min_action_cooldown ≤ now - (stabEntry1 st u now is_live).last_action_time :=
  (track_true_conds h).2.2

/-- A true decision can only occur at least one cooldown after any lower bound
on the stored `last_action_time`. -/
theorem track_true_time_bound {cfg : StabilityConfig} {u : String} {t : Int}
    {st : List (String × StabilityEntry)} (hla : lastActionGE u t st)
    {now : Int} {is_live current_recording : Bool}
    (h : (trackStreamStability cfg st now u is_live current_recording).1 = true) :
    t + cfg.min_action_cooldown ≤ now := by
  rcases hla with ⟨i, hi, hit⟩
  have hcd := track_true_cooldown h
  have he0 : stabEntry0 st u now = i := by simp [stabEntry0, hi]
  rw [stabEntry1_la, he0] at hcd
  omega

/-- A true decision stores `last_action_time = now` for the user. -/
theorem track_true_lastActionGE {cfg : StabilityConfig}
    {st : List (String × StabilityEntry)} {now : Int} {u : String}
    {is_live current_recording : Bool}
    (h : (trackStreamStability cfg st now u is_live current_recording).1 = true) :
    lastActionGE u now (trackStreamStability cfg st now u is_live current_recording).2 := by
  obtain ⟨h1, h2, h3⟩ := track_true_conds h
  unfold trackStreamStability
  simp only [h1, if_pos h2, if_pos h3, if_true]
  exact ⟨_, dget?_dset_self _ _ _, le_refl now⟩

/-- Concrete instantiation of the C6 theorem. -/
theorem c6_counters_exclusive_witness :
    (⟨[((0 : Int), true)], -600, 1, 0, some true⟩ : StabilityEntry).consecutive_live = 0 ∨
      (⟨[((0 : Int), true)], -600, 1, 0, some true⟩ : StabilityEntry).consecutive_offline = 0 :=
  c6_counters_exclusive ⟨3, 90⟩ [⟨0, "a", true, false⟩] "a"
    ⟨[((0 : Int), true)], -600, 1, 0, some true⟩ (by decide)

/-- C7: once a start decision is returned for a user, no later observe call
strictly within the cooldown window returns another start decision for that
user, regardless of the observation pattern in between (`mid` may contain
arbitrary calls for this and other users) and regardless of the tracker state
`st0` the first decision was made in. -/
theorem c7_no_start_within_cooldown (cfg : StabilityConfig)
    (h0 : 0 ≤ cfg.min_action_cooldown)
    (st0 : List (String × StabilityEntry)) (ci cj : ObsCall) (mid : List ObsCall)
    (hu : cj.username = ci.username)
    (hdi : (trackStreamStability cfg st0 ci.now ci.username ci.is_live
      ci.current_recording).1 = true)
    (hlt : cj.now - ci.now < cfg.min_action_cooldown) :
    (trackStreamStability cfg
        (runStability cfg mid
          (trackStreamStability cfg st0 ci.now ci.username ci.is_live
            ci.current_recording).2)
        cj.now cj.username cj.is_live cj.current_recording).1 = false := by
  have h1 : lastActionGE ci.username ci.now
      (trackStreamStability cfg st0 ci.now ci.username ci.is_live
        ci.current_recording).2 := track_true_lastActionGE hdi
  have h2 : lastActionGE ci.username ci.now
      (runStability cfg mid
        (trackStreamStability cfg st0 ci.now ci.username ci.is_live
          ci.current_recording).2) := runStability_lastActionGE h0 h1 mid
  cases hx : (trackStreamStability cfg
      (runStability cfg mid
        (trackStreamStability cfg st0 ci.now ci.username ci.is_live
          ci.current_recording).2)
      cj.now cj.username cj.is_live cj.current_recording).1 with
  | false => rfl
  | true =>
    exfalso
    rw [hu] at hx
    have := track_true_time_bound h2 hx
    omega

/-- Concrete instantiation of the C7 theorem: a start decision fires at t=700
(threshold 1) and a second live observation at t=710 is refused. -/
theorem c7_no_start_within_cooldown_witness :
    (trackStreamStability ⟨1, 90⟩
        (runStability ⟨1, 90⟩ []
          (trackStreamStability ⟨1, 90⟩ [] 700 "a" true false).2)
        710 "a" true false).1 = false :=
  c7_no_start_within_cooldown ⟨1, 90⟩ (by decide) [] ⟨700, "a", true, false⟩
    ⟨710, "a", true, false⟩ [] rfl (by decide) (by decide)

/-! ### C8: the decision rule -/

/-- The decisions returned across a sequence of observe calls. -/
def runStabilityDecisions (cfg : StabilityConfig) :
    List ObsCall → List (String × StabilityEntry) → List Bool
  | [], _ => []
  | c :: cs, st =>
    let r := trackStreamStability cfg st c.now c.username c.is_live c.current_recording
    r.1 :: runStabilityDecisions cfg cs r.2

/-- C8: the observe decision is true exactly when the sample is live, no
recording is active, the updated `consecutive_live` counter has reached the
stability threshold and the time since the stored `last_action_time` is at
least the cooldown; a true return stores `last_action_time = now`; an offline
sample always yields false; and the spec scenario (threshold 3, cooldown 90,
live samples at t=0,10,20,30 for a fresh user) yields decisions
[false, false, true, false]. -/
theorem c8_decision_rule :
    (∀ (cfg : StabilityConfig) (st : List (String × StabilityEntry)) (now : Int)
        (u : String) (is_live current_recording : Bool),
      (trackStreamStability cfg st now u is_live current_recording).1 = true ↔
        (is_live = true ∧ current_recording = false ∧
          cfg.stability_threshold ≤ (stabEntry1 st u now is_live).consecutive_live ∧
          cfg.min_action_cooldown ≤
            now - (stabEntry1 st u now is_live).last_action_time)) ∧
    (∀ (cfg : StabilityConfig) (st : List (String × StabilityEntry)) (now : Int)
        (u : String) (is_live current_recording : Bool),
      (trackStreamStability cfg st now u is_live current_recording).1 = true →
        ∃ i, dget? u (trackStreamStability cfg st now u is_live current_recording).2 =
            some i ∧ i.last_action_time = now) ∧
    (∀ (cfg : StabilityConfig) (st : List (String × StabilityEntry)) (now : Int)
        (u : String) (current_recording : Bool),
      (trackStreamStability cfg st now u false current_recording).1 = false) ∧
    runStabilityDecisions ⟨3, 90⟩
        [⟨0, "a", true, false⟩, ⟨10, "a", true, false⟩,
         ⟨20, "a", true, false⟩, ⟨30, "a", true, false⟩] [] =
      [false, false, true, false] := by
  refine ⟨?_, ?_, ?_, by decide⟩
  · intro cfg st now u is_live current_recording
    constructor
    · intro h
      obtain ⟨h1, h2, h3⟩ := track_true_conds h
      rcases Bool.and_eq_true_iff.mp h1 with ⟨hl, hr⟩
      exact ⟨hl, by simpa using hr, h2, h3⟩
    · rintro ⟨hl, hr, h2, h3⟩
      subst hl; subst hr
      unfold trackStreamStability
      simp [h2, h3]
  · intro cfg st now u is_live current_recording h
    obtain ⟨h1, h2, h3⟩ := track_true_conds h
    refine ⟨{ stabEntry1 st u now is_live with last_action_time := now }, ?_, rfl⟩
    unfold trackStreamStability
    simp only [h1, if_pos h2, if_pos h3, if_true]
    exact dget?_dset_self _ _ _
  · intro cfg st now u current_recording
    unfold trackStreamStability
    simp

/-- Concrete instantiation of the C8 theorem: with threshold 1 and cooldown 0
a first live sample at t=700 triggers a decision and stores
`last_action_time = 700`. -/
theorem c8_decision_rule_witness :
    ∃ i, dget? "a" (trackStreamStability ⟨1, 0⟩ [] 700 "a" true false).2 = some i ∧
      i.last_action_time = 700 :=
  c8_decision_rule.2.1 ⟨1, 0⟩ [] 700 "a" true false (by decide)

/-! ### Recording lifecycle manager (src/recording/stream_recorder.py) -/

/-- One entry of `StreamRecorder.active_recordings`: either the `{}` placeholder
written at slot reservation in `start_recording` (before the await of
`client.start`), or the full `recording_info` committed after the client
started. -/
inductive RecordingEntry where
  | placeholder
  | committed (start_time : Int) (is_recording : Bool)
deriving Repr, DecidableEq

/-- One entry of `StreamRecorder.pending_disconnects`: the timestamp of the
disconnect event (the task handle is modelled by the wake function below). -/
structure PendingEntry where
  timestamp : Int
deriving Repr, DecidableEq

/-- The mutable state of `StreamRecorder` (plus the `active_writers` key set of
its `CSVWriter`). -/
structure RecorderState where
  active_recordings : List (String × RecordingEntry)
  pending_disconnects : List (String × PendingEntry)
  csv_writers : List String
deriving Repr, DecidableEq

/-- Externally visible effects performed by the recorder, in order. -/
inductive Action where
  | cancelTask (u : String)
  | stopVideo (u : String) (graceful : Bool)
  | disconnectClient (u : String)
  | closeCsv (u : String)
  | pollStatus (u : String)
  | stopped (u : String) (reason : String)
  | startFailedLog (u : String) (msg : String)
deriving Repr, DecidableEq

/-- The value a Python function call produces: a returned value or a raised
exception. -/
inductive PyResult (α : Type) where
  | ret (a : α)
  | exn
deriving Repr, DecidableEq

/-- The deletion `del active_writers[u]` in `close_csv_writers` (keys are unique, so the
filter removes exactly the one entry). -/
def csvDel (u : String) (l : List String) : List String :=
  l.filter (fun x => x != u)

/-- Collaborator outcomes for one `stop_recording` call: the video handler's
result, whether the client reports `connected`, the CSV close result, and
whether an exception is raised inside the `try` block (before or after the
CSV close). -/
structure StopEnv where
  video_ok : Bool
  client_connected : Bool
  csv_ok : Bool
  raise_before_csv : Bool
  raise_after_csv : Bool
deriving Repr, DecidableEq

/-- The method `StreamRecorder.stop_recording(username, reason)`.

Follows the source line by line: early failure return when no active
recording exists; cancel-and-delete of a pending disconnect confirmation;
the `duration` computation (which raises `KeyError` on the `{}` reservation
placeholder, before the `try`/`finally` is entered); the teardown sequence
inside `try`; and the `finally` block that deletes the entry from
`active_recordings` on every path that reaches it. -/
def stop_recording (st : RecorderState) (u : String) (reason : String)
    (env : StopEnv) : PyResult Bool × RecorderState × List Action :=
  if dmem u st.active_recordings = false then
    (.ret false, st, [])
  else
    let hadPending := dmem u st.pending_disconnects
    let cancelActs := if hadPending then [Action.cancelTask u] else []
    let st1 := { st with pending_disconnects :=
      if hadPending then ddel u st.pending_disconnects else st.pending_disconnects }
    match dget? u st1.active_recordings with
    | none => (.ret false, st1, cancelActs)
    | some RecordingEntry.placeholder =>
      -- `recording_info['start_time']` raises before the try/finally:
      -- the active slot is NOT removed on this path
      (.exn, st1, cancelActs)
    | some (RecordingEntry.committed t _) =>
      -- inside the try: mark not recording, stop video, maybe disconnect
      let st2 := { st1 with active_recordings := (
        dset u (RecordingEntry.committed t false) st1.active_recordings) }
      let acts0 := cancelActs ++ [Action.stopVideo u true] ++
        (if env.client_connected then [Action.disconnectClient u] else [])
      if env.raise_before_csv then
        (.ret false,
          { st2 with active_recordings := ddel u st2.active_recordings }, acts0)
      else
        let st3 := { st2 with csv_writers := csvDel u st2.csv_writers }
        let acts1 := acts0 ++ [Action.closeCsv u]
        if env.raise_after_csv then
          (.ret false,
            { st3 with active_recordings := ddel u st3.active_recordings }, acts1)
        else
          (.ret true,
            { st3 with active_recordings := ddel u st3.active_recordings },
            acts1 ++ [Action.stopped u reason])

/-- Result of the synchronous prefix of `start_recording` (no await points up
to and including the slot reservation). -/
inductive ReserveResult where
  | alreadyActive
  | capacityExceeded
  | reserved
deriving Repr, DecidableEq

/-- The synchronous prefix of `StreamRecorder.start_recording`: the
already-recording check, the `max_concurrent_recordings` capacity check, and
the reservation `active_recordings[username] = {}` — all before any
await/suspension point. -/
def start_sync (max_concurrent : Nat) (st : RecorderState) (u : String) :
    ReserveResult × RecorderState :=
  if dmem u st.active_recordings then (.alreadyActive, st)
  else if max_concurrent ≤ st.active_recordings.length then (.capacityExceeded, st)
  else (.reserved,
    { st with active_recordings := (
        dset u RecordingEntry.placeholder st.active_recordings) })

/-- Which way the awaited part of `start_recording` goes: everything succeeds,
`initialize_csv_writers` returns False (raising "Failed to initialize CSV
writers"), or `client.start` raises after the CSV writers were opened. -/
inductive StartRun where
  | ok
  | csvInitFails
  | clientStartRaises
deriving Repr, DecidableEq

/-- Whether `initialize_csv_writers` reports failure in this run. -/
def csvInitReturnsFalse : StartRun → Bool
  | StartRun.csvInitFails => true
  | _ => false

/-- The method `StreamRecorder.start_recording(username)` in full: the synchronous prefix,
then the awaited body with its exception handler, which removes the
reservation from `active_recordings` and closes the CSV writers when
`csv_writer.is_writing(username)`. -/
def start_recording (max_concurrent : Nat) (st : RecorderState) (u : String)
    (now : Int) (run : StartRun) : Bool × RecorderState × List Action :=
  match start_sync max_concurrent st u with
  | (.alreadyActive, st1) => (false, st1, [])
  | (.capacityExceeded, st1) =>
    (false, st1, [Action.startFailedLog u "Max concurrent recordings reached"])
  | (.reserved, st1) =>
    if st1.csv_writers.contains u || csvInitReturnsFalse run then
      -- CSV initialization failed (it cleans up its own partially opened
      -- files and does not register writers): exception path
      let st2 := { st1 with active_recordings := ddel u st1.active_recordings }
      if st2.csv_writers.contains u then
        (false, { st2 with csv_writers := csvDel u st2.csv_writers },
          [Action.closeCsv u])
      else
        (false, st2, [])
    else
      match run with
      | .clientStartRaises =>
        -- CSV writers were registered, then `client.start` raised
        let st2 := { st1 with csv_writers := st1.csv_writers ++ [u] }
        let st3 := { st2 with active_recordings := ddel u st2.active_recordings }
        (false, { st3 with csv_writers := csvDel u st3.csv_writers },
          [Action.closeCsv u])
      | _ =>
        (true,
          { st1 with
              active_recordings :=
                dset u (RecordingEntry.committed now true) st1.active_recordings
              csv_writers := st1.csv_writers ++ [u] },
          [])

/-- The `LiveEndEvent` handler `on_live_end` registered in
`_setup_event_handlers`: delete any pending disconnect entry (without
cancelling its task), then stop with reason "live_end_event". -/
def on_live_end (st : RecorderState) (u : String) (env : StopEnv) :
    PyResult Bool × RecorderState × List Action :=
  let st1 := { st with pending_disconnects := (
    if dmem u st.pending_disconnects then ddel u st.pending_disconnects
    else st.pending_disconnects) }
  stop_recording st1 u "live_end_event" env

/-- The `DisconnectEvent` handler `on_disconnect`: if no pending disconnect
exists for the user, create one (here the confirmation task is scheduled);
the handler performs no check against `active_recordings`. -/
def on_disconnect (st : RecorderState) (u : String) (now : Int) : RecorderState :=
  if dmem u st.pending_disconnects then st
  else { st with pending_disconnects := dset u ⟨now⟩ st.pending_disconnects }

/-- Outcome of the one re-poll inside `_handle_disconnect_confirmation`. -/
inductive PollOutcome where
  | live
  | offline
  | pollRaises
deriving Repr, DecidableEq

/-- The part of `_handle_disconnect_confirmation` that runs after the sleep:
the membership guard, the re-poll with its stop decisions, and the trailing
cleanup of the pending entry. -/
def handleDisconnectWake (st : RecorderState) (u : String) (poll : PollOutcome)
    (env : StopEnv) : RecorderState × List Action :=
  let r :=
    if dmem u st.pending_disconnects && dmem u st.active_recordings then
      match poll with
      | .live => (st, [Action.pollStatus u])
      | .offline =>
        let r1 := stop_recording st u "disconnect_confirmed" env
        (r1.2.1, Action.pollStatus u :: r1.2.2)
      | .pollRaises =>
        let r1 := stop_recording st u "disconnect_error" env
        (r1.2.1, Action.pollStatus u :: r1.2.2)
    else (st, [])
  ({ r.1 with pending_disconnects := (
      if dmem u r.1.pending_disconnects then ddel u r.1.pending_disconnects
      else r.1.pending_disconnects) }, r.2)

theorem dget?_isSome_of_mem {k : String} {d : List (String × α)}
    (h : dmem k d = true) : ∃ v, dget? k d = some v := by
  induction d with
  | nil => simp [dmem] at h
  | cons p tl ih =>
    by_cases hp : p.1 = k
    · exact ⟨p.2, by simp [dget?, hp]⟩
    · simp [dmem, hp] at h
      rcases ih h with ⟨v, hv⟩
      exact ⟨v, by simp [dget?, hp, hv]⟩

theorem csvDel_not_contains (u : String) (l : List String) :
    (csvDel u l).contains u = false := by
  simp [csvDel, List.mem_filter]

theorem not_mem_csvDel (u : String) (l : List String) : u ∉ csvDel u l := by
  intro h
  have := (List.mem_filter.mp h).2
  simp at this

/-- A fully successful collaborator environment for a stop call. -/
def stopEnvOk : StopEnv := ⟨true, true, true, false, false⟩

/-! ### C2: idempotence of stopRecording -/

/-- C2 counterexample: with one active session for "a", the first
`stop_recording` returns True but the immediately repeated call returns
False (the source returns False when no active recording is found), so the
claim that both calls return success is false on this input. -/
theorem c2_counterexample :
    (stop_recording ⟨[("a", RecordingEntry.committed 0 true)], [], ["a"]⟩
        "a" "manual" stopEnvOk).1 = PyResult.ret true ∧
      (stop_recording
          (stop_recording ⟨[("a", RecordingEntry.committed 0 true)], [], ["a"]⟩
            "a" "manual" stopEnvOk).2.1
          "a" "manual" stopEnvOk).1 = PyResult.ret false := by
  decide

/-- C2 (amended): a `stop_recording` call for an entity with no active session
returns False (not success) and is a no-op: it releases no resources
(performs no actions) and leaves all state unchanged. -/
theorem c2_stop_without_session_noop (st : RecorderState) (u : String)
    (reason : String) (env : StopEnv)
    (h : dmem u st.active_recordings = false) :
    stop_recording st u reason env = (PyResult.ret false, st, []) := by
  unfold stop_recording
  simp [h]

/-- Concrete instantiation of the amended C2 theorem: a second stop call after
a successful stop is a failure-returning no-op. -/
theorem c2_stop_without_session_noop_witness :
    stop_recording
        (stop_recording ⟨[("a", RecordingEntry.committed 0 true)], [], ["a"]⟩
          "a" "manual" stopEnvOk).2.1
        "a" "manual" stopEnvOk =
      (PyResult.ret false,
        (stop_recording ⟨[("a", RecordingEntry.committed 0 true)], [], ["a"]⟩
          "a" "manual" stopEnvOk).2.1, []) :=
  c2_stop_without_session_noop
    (stop_recording ⟨[("a", RecordingEntry.committed 0 true)], [], ["a"]⟩
      "a" "manual" stopEnvOk).2.1
    "a" "manual" stopEnvOk (by decide)

/-! ### C9: no leaked slot on stop; rollback on failed start -/

/-- C9: `stop_recording` removes the entity from the active set on every exit
path (success, video-stop failure, client disconnect or sink-close trouble,
and any exception raised during teardown), provided the entity's entry is an
actual session (the `{}` reservation placeholder of an in-flight start is not
a session); and a `start_recording` that fails mid-sequence returns False,
rolls its reservation back out of the active set and leaves no open CSV
writers for the entity. -/
theorem c9_cleanup_on_all_paths :
    (∀ (st : RecorderState) (u : String) (reason : String) (env : StopEnv),
      dget? u st.active_recordings ≠ some RecordingEntry.placeholder →
      dmem u (stop_recording st u reason env).2.1.active_recordings = false) ∧
    (∀ (max_concurrent : Nat) (st : RecorderState) (u : String) (now : Int)
        (run : StartRun),
      dmem u st.active_recordings = false →
      st.active_recordings.length < max_concurrent →
      run ≠ StartRun.ok →
      (start_recording max_concurrent st u now run).1 = false ∧
      dmem u (start_recording max_concurrent st u now run).2.1.active_recordings
        = false ∧
      (start_recording max_concurrent st u now run).2.1.csv_writers.contains u
        = false) := by
  constructor
  · intro st u reason env hph
    unfold stop_recording
    cases hmem : dmem u st.active_recordings with
    | false => simp [hmem]
    | true =>
      rcases dget?_isSome_of_mem hmem with ⟨v, hv⟩
      cases v with
      | placeholder => exact absurd hv hph
      | committed t r =>
        simp only [hmem, Bool.true_eq_false, if_false, hv]
        by_cases h1 : env.raise_before_csv
        · simp [h1, dmem_ddel_self]
        · by_cases h2 : env.raise_after_csv
          · simp [h1, h2, dmem_ddel_self]
          · simp [h1, h2, dmem_ddel_self]
  · intro max_concurrent st u now run hmem hlen hrun
    unfold start_recording start_sync
    have hcap : ¬ max_concurrent ≤ st.active_recordings.length :=
      Nat.not_le.mpr hlen
    cases run with
    | ok => exact absurd rfl hrun
    | csvInitFails =>
      by_cases hcsv : u ∈ st.csv_writers
      · simp [hmem, hcap, hcsv, csvInitReturnsFalse, dmem_ddel_self,
          not_mem_csvDel]
      · simp [hmem, hcap, hcsv, csvInitReturnsFalse, dmem_ddel_self]
    | clientStartRaises =>
      by_cases hcsv : u ∈ st.csv_writers
      · simp [hmem, hcap, hcsv, csvInitReturnsFalse, dmem_ddel_self,
          not_mem_csvDel]
      · simp [hmem, hcap, hcsv, csvInitReturnsFalse, dmem_ddel_self,
          not_mem_csvDel]

/-! ### C3: live-end during a pending disconnect -/

/-- C3 counterexample: with an active session and a pending disconnect for
"a", the live-end handler stops the recording with reason "live_end_event"
(not "live_end") and never invokes `task.cancel()` on the confirmation task
(the handler only deletes the dict entry), so the claim as stated — stop
reason `live_end` and cancellation of the task — is false on this input. -/
theorem c3_counterexample :
    (Action.stopped "a" "live_end" ∉
      (on_live_end ⟨[("a", RecordingEntry.committed 0 true)], [("a", ⟨0⟩)], ["a"]⟩
        "a" stopEnvOk).2.2) ∧
    (Action.cancelTask "a" ∉
      (on_live_end ⟨[("a", RecordingEntry.committed 0 true)], [("a", ⟨0⟩)], ["a"]⟩
        "a" stopEnvOk).2.2) ∧
    (Action.stopped "a" "live_end_event" ∈
      (on_live_end ⟨[("a", RecordingEntry.committed 0 true)], [("a", ⟨0⟩)], ["a"]⟩
        "a" stopEnvOk).2.2) := by
  decide

/-- C3 (amended): for an entity with an active session and a pending
disconnect, a live-end event immediately removes the pending-disconnect entry
and the active session; when the teardown raises no exception the stop is
logged with reason "live_end_event"; and the confirmation task, when it later
wakes, performs no re-poll and no stop of its own: it returns with no actions
and leaves the state unchanged. (The task object itself is not cancelled —
the handler only deletes the dict entry — and the recorded reason string is
"live_end_event", not "live_end".) -/
theorem c3_live_end_preempts_confirmation (st : RecorderState) (u : String)
    (t : Int) (rb : Bool) (env : StopEnv) (poll : PollOutcome) (env2 : StopEnv)
    (ha : dget? u st.active_recordings = some (RecordingEntry.committed t rb))
    (hp : dmem u st.pending_disconnects = true) :
    dmem u (on_live_end st u env).2.1.pending_disconnects = false ∧
    dmem u (on_live_end st u env).2.1.active_recordings = false ∧
    (env.raise_before_csv = false → env.raise_after_csv = false →
      Action.stopped u "live_end_event" ∈ (on_live_end st u env).2.2) ∧
    handleDisconnectWake (on_live_end st u env).2.1 u poll env2 =
      ((on_live_end st u env).2.1, []) := by
  have hmem1 : dmem u st.active_recordings = true := dmem_eq_true_of_get ha
  have hres : dmem u (on_live_end st u env).2.1.pending_disconnects = false ∧
      dmem u (on_live_end st u env).2.1.active_recordings = false ∧
      (env.raise_before_csv = false → env.raise_after_csv = false →
        Action.stopped u "live_end_event" ∈ (on_live_end st u env).2.2) := by
    unfold on_live_end stop_recording
    by_cases h1 : env.raise_before_csv <;>
      by_cases h2 : env.raise_after_csv <;>
        simp [hp, hmem1, ha, h1, h2, dmem_ddel_self]
  refine ⟨hres.1, hres.2.1, hres.2.2, ?_⟩
  unfold handleDisconnectWake
  simp [hres.1]

/-- Concrete instantiation of the amended C3 theorem. -/
theorem c3_live_end_preempts_confirmation_witness :
    dmem "a" (on_live_end
        ⟨[("a", RecordingEntry.committed 0 true)], [("a", ⟨0⟩)], ["a"]⟩
        "a" stopEnvOk).2.1.pending_disconnects = false ∧
    dmem "a" (on_live_end
        ⟨[("a", RecordingEntry.committed 0 true)], [("a", ⟨0⟩)], ["a"]⟩
        "a" stopEnvOk).2.1.active_recordings = false ∧
    (stopEnvOk.raise_before_csv = false → stopEnvOk.raise_after_csv = false →
      Action.stopped "a" "live_end_event" ∈
        (on_live_end ⟨[("a", RecordingEntry.committed 0 true)], [("a", ⟨0⟩)], ["a"]⟩
          "a" stopEnvOk).2.2) ∧
    handleDisconnectWake (on_live_end
        ⟨[("a", RecordingEntry.committed 0 true)], [("a", ⟨0⟩)], ["a"]⟩
        "a" stopEnvOk).2.1 "a" PollOutcome.offline stopEnvOk =
      ((on_live_end ⟨[("a", RecordingEntry.committed 0 true)], [("a", ⟨0⟩)], ["a"]⟩
        "a" stopEnvOk).2.1, []) :=
  c3_live_end_preempts_confirmation
    ⟨[("a", RecordingEntry.committed 0 true)], [("a", ⟨0⟩)], ["a"]⟩
    "a" 0 true stopEnvOk PollOutcome.offline stopEnvOk (by decide) (by decide)

/-- Concrete instantiation of the C9 theorem: a stop with an exception during
teardown still clears the slot, and a start whose `client.start` raises rolls
everything back. -/
theorem c9_cleanup_on_all_paths_witness :
    dmem "a" (stop_recording ⟨[("a", RecordingEntry.committed 0 true)], [], ["a"]⟩
        "a" "manual" ⟨false, true, true, true, false⟩).2.1.active_recordings
      = false ∧
    ((start_recording 2 ⟨[("a", RecordingEntry.committed 0 true)], [], ["a"]⟩
        "b" 5 StartRun.clientStartRaises).1 = false ∧
      dmem "b" (start_recording 2
          ⟨[("a", RecordingEntry.committed 0 true)], [], ["a"]⟩
          "b" 5 StartRun.clientStartRaises).2.1.active_recordings = false ∧
      (start_recording 2 ⟨[("a", RecordingEntry.committed 0 true)], [], ["a"]⟩
          "b" 5 StartRun.clientStartRaises).2.1.csv_writers.contains "b" = false) :=
  ⟨c9_cleanup_on_all_paths.1 ⟨[("a", RecordingEntry.committed 0 true)], [], ["a"]⟩
      "a" "manual" ⟨false, true, true, true, false⟩ (by decide),
    c9_cleanup_on_all_paths.2 2 ⟨[("a", RecordingEntry.committed 0 true)], [], ["a"]⟩
      "b" 5 StartRun.clientStartRaises (by decide) (by decide) (by decide)⟩

/-! ### Status poller (src/monitor/stream_checker.py) -/

/-- Per-entity outcome of one `check_streamer_status` call: either some
attempt succeeds and returns the client's live status, or every retry fails
(timeouts, transport errors, not-found, unknown — all converge on marking
the client failed and returning False). -/
inductive CheckOutcome where
  | success (is_live : Bool)
  | allRetriesFail
deriving Repr, DecidableEq

/-- The method `StreamChecker.check_streamer_status(username)` as it affects
`self.clients` (modelled by its `failed` flags) and its returned Bool: a
client entry with `failed = False` is created when absent; on success the
flag is reset to False and the live status returned; when all retries fail
the flag is set to True and False is returned. -/
def check_streamer_status (clients : List (String × Bool)) (u : String)
    (oc : CheckOutcome) : Bool × List (String × Bool) :=
  let cl1 := if dmem u clients then clients else dset u false clients
  match oc with
  | .success l => (l, dset u false cl1)
  | .allRetriesFail => (false, dset u true cl1)

/-- The per-batch result-processing loop of `check_all_streamers_parallel`:
each roster entity is checked once, its result stored in `live_status`, and
the client entry of every entity that reported offline is deleted ("to avoid
accumulating TikTokLiveClient instances"). The accumulator is
`(live_status, clients)`. -/
def checkLoop (oc : String → CheckOutcome) :
    List String → List (String × Bool) × List (String × Bool) →
    List (String × Bool) × List (String × Bool)
  | [], acc => acc
  | u :: tl, acc =>
    let r := check_streamer_status acc.2 u (oc u)
    checkLoop oc tl (dset u r.1 acc.1, if r.1 then r.2 else ddel u r.2)

/-- The method `StreamChecker.check_all_streamers_parallel(enabled_streamers)`:
the result-processing loop over the roster, followed by the aggregate check
`len(self.clients) > 0 and not any(not failed)` that stores the
`_all_failed` key. Returns `(live_status, clients)`. -/
def check_all_streamers_parallel (clients : List (String × Bool))
    (roster : List String) (oc : String → CheckOutcome) :
    List (String × Bool) × List (String × Bool) :=
  let a := checkLoop oc roster ([], clients)
  let allFailed := decide (0 < a.2.length) && a.2.all (fun p => p.2)
  (dset "_all_failed" allFailed a.1, a.2)

/-- After the processing loop, starting from clients that are all unfailed,
the surviving client entries are still all unfailed: an entity that failed is
reported offline and its entry is deleted before the aggregate check. -/
theorem checkLoop_clients_unfailed (oc : String → CheckOutcome)
    (roster : List String) :
    ∀ (ls cls : List (String × Bool)), (∀ p ∈ cls, p.2 = false) →
      ∀ p ∈ (checkLoop oc roster (ls, cls)).2, p.2 = false := by
  induction roster with
  | nil => intro ls cls hc; simpa [checkLoop] using hc
  | cons u tl ih =>
    intro ls cls hc
    have hcl1 : ∀ p ∈ (if dmem u cls then cls else dset u false cls),
        p.2 = false := by
      by_cases hm : dmem u cls
      · simpa [hm] using hc
      · simp only [hm, if_false]
        exact dset_forall (P := fun b => b = false) hc rfl
    cases hoc : oc u with
    | success l =>
      cases l with
      | true =>
        simp only [checkLoop, check_streamer_status, hoc]
        exact ih _ _ (dset_forall (P := fun b => b = false) hcl1 rfl)
      | false =>
        simp only [checkLoop, check_streamer_status, hoc]
        rw [ddel_dset_self]
        exact ih _ _ (ddel_forall (P := fun b => b = false) hcl1 u)
    | allRetriesFail =>
      simp only [checkLoop, check_streamer_status, hoc]
      rw [ddel_dset_self]
      exact ih _ _ (ddel_forall (P := fun b => b = false) hcl1 u)

/-- C4 general form: starting from a checker whose client entries are all
unfailed (in particular a fresh checker), the `_all_failed` key of the
returned map is always False — even when every entity in the roster fails
all of its retries. -/
theorem allFailedFlag_always_false (roster : List String)
    (oc : String → CheckOutcome) (clients : List (String × Bool))
    (h : ∀ p ∈ clients, p.2 = false) :
    dget? "_all_failed" (check_all_streamers_parallel clients roster oc).1 =
      some false := by
  have hsurv := checkLoop_clients_unfailed oc roster [] clients h
  unfold check_all_streamers_parallel
  rw [dget?_dset_self]
  congr 1
  cases hc : (checkLoop oc roster ([], clients)).2 with
  | nil => simp
  | cons p tl =>
    have hp : p.2 = false := by
      apply hsurv
      simp only [hc]
      exact List.mem_cons_self _ _
    simp [List.all_cons, hp]

/-- C4 at the concrete failing input: a fresh checker, roster `{"a"}`, and
"a" failing all of its retries — the batch result reports
`_all_failed = False` (every failed entity's client entry was pruned as
offline before the aggregate check), where the claim and the spec require
True. -/
theorem c4_code_bug_failing_input :
    (check_all_streamers_parallel [] ["a"]
        (fun _ => CheckOutcome.allRetriesFail)).1 =
      [("a", false), ("_all_failed", false)] := by
  decide

/-! ### Monitoring loop (src/monitor/stream_monitor.py) -/

/-- The result-processing loop of `StreamMonitor.monitor_streamers`: every
`(username, is_live)` item of the map returned by the batch check is fed to
`track_stream_stability`, and on a true decision for a live, not-recording
user a `start_recording` task is launched (`actions_taken` collects
"user:LIVE"). -/
def processLiveStatus (cfg : StabilityConfig) (now : Int) (rec : RecorderState) :
    List (String × Bool) → List (String × StabilityEntry) → List String →
    List (String × StabilityEntry) × List String
  | [], stab, acts => (stab, acts)
  | p :: tl, stab, acts =>
    let current_recording := dmem p.1 rec.active_recordings
    let r := trackStreamStability cfg stab now p.1 p.2 current_recording
    let acts1 := if r.1 && p.2 && !current_recording
      then acts ++ [p.1 ++ ":LIVE"] else acts
    processLiveStatus cfg now rec tl r.2 acts1

theorem dmem_dset_of_mem {v : String} {d : List (String × α)}
    (h : dmem v d = true) (u : String) (x : α) : dmem v (dset u x d) = true := by
  by_cases huv : v = u
  · subst huv
    exact dmem_dset_self v x d
  · rw [dmem_dset_other huv]
    exact h

/-- A tracker step keeps every existing user record present. -/
theorem trackStreamStability_dmem_mono {v : String}
    {st : List (String × StabilityEntry)} (h : dmem v st = true)
    (cfg : StabilityConfig) (now : Int) (u : String)
    (is_live current_recording : Bool) :
    dmem v (trackStreamStability cfg st now u is_live current_recording).2
      = true := by
  rcases trackStreamStability_snd cfg st now u is_live current_recording
    with ⟨la, heq, _⟩
  rw [heq]
  exact dmem_dset_of_mem h u _

/-- A tracker step creates/keeps the record of the observed user. -/
theorem trackStreamStability_dmem_self (cfg : StabilityConfig)
    (st : List (String × StabilityEntry)) (now : Int) (u : String)
    (is_live current_recording : Bool) :
    dmem u (trackStreamStability cfg st now u is_live current_recording).2
      = true := by
  rcases trackStreamStability_snd cfg st now u is_live current_recording
    with ⟨la, heq, _⟩
  rw [heq]
  exact dmem_dset_self u _ st

/-- Existing tracker records survive the whole processing loop. -/
theorem processLiveStatus_dmem_mono (cfg : StabilityConfig) (now : Int)
    (rec : RecorderState) (ls : List (String × Bool)) :
    ∀ (stab : List (String × StabilityEntry)) (acts : List String) (v : String),
      dmem v stab = true →
      dmem v (processLiveStatus cfg now rec ls stab acts).1 = true := by
  induction ls with
  | nil => intro stab acts v h; simpa [processLiveStatus] using h
  | cons p tl ih =>
    intro stab acts v h
    simp only [processLiveStatus]
    exact ih _ _ v (trackStreamStability_dmem_mono h cfg now p.1 p.2 _)

/-- Every entry of the processed map ends up as a tracker record. -/
theorem processLiveStatus_dmem (cfg : StabilityConfig) (now : Int)
    (rec : RecorderState) (ls : List (String × Bool)) :
    ∀ (stab : List (String × StabilityEntry)) (acts : List String)
      (p : String × Bool), p ∈ ls →
      dmem p.1 (processLiveStatus cfg now rec ls stab acts).1 = true := by
  induction ls with
  | nil => intro stab acts p hp; simp at hp
  | cons q tl ih =>
    intro stab acts p hp
    rcases List.mem_cons.mp hp with hp | hp
    · subst hp
      simp only [processLiveStatus]
      exact processLiveStatus_dmem_mono cfg now rec tl _ _ p.1
        (trackStreamStability_dmem_self cfg stab now p.1 p.2 _)
    · simp only [processLiveStatus]
      exact ih _ _ p hp

/-- Every key of the live-status map survives into it, and the loop feeds it. -/
theorem checkLoop_ls_mono (oc : String → CheckOutcome) (roster : List String) :
    ∀ (ls cls : List (String × Bool)) (v : String), dmem v ls = true →
      dmem v (checkLoop oc roster (ls, cls)).1 = true := by
  induction roster with
  | nil => intro ls cls v h; simpa [checkLoop] using h
  | cons u tl ih =>
    intro ls cls v h
    simp only [checkLoop]
    exact ih _ _ v (dmem_dset_of_mem h u _)

/-- Every roster entity gets an entry in the live-status map. -/
theorem checkLoop_roster_mem (oc : String → CheckOutcome) (roster : List String) :
    ∀ (ls cls : List (String × Bool)) (u : String), u ∈ roster →
      dmem u (checkLoop oc roster (ls, cls)).1 = true := by
  induction roster with
  | nil => intro ls cls u h; simp at h
  | cons w tl ih =>
    intro ls cls u h
    rcases List.mem_cons.mp h with h | h
    · subst h
      simp only [checkLoop]
      exact checkLoop_ls_mono oc tl _ _ u (dmem_dset_self u _ ls)
    · simp only [checkLoop]
      exact ih _ _ u h

/-- C10: the map returned by the batch status check contains a boolean entry
for every roster entity plus the extra `_all_failed` key; and the monitoring
loop iterates over every item of this map — the `_all_failed` sentinel
included — feeding each one to the stability tracker as if it were an
entity, so after one cycle the tracker holds a record keyed "_all_failed". -/
theorem c10_sentinel_fed_to_tracker :
    (∀ (clients : List (String × Bool)) (roster : List String)
        (oc : String → CheckOutcome),
      (∃ b, dget? "_all_failed"
          (check_all_streamers_parallel clients roster oc).1 = some b) ∧
      (∀ u ∈ roster, ∃ b,
        dget? u (check_all_streamers_parallel clients roster oc).1 = some b)) ∧
    (∀ (cfg : StabilityConfig) (now : Int) (rec : RecorderState)
        (stab : List (String × StabilityEntry))
        (clients : List (String × Bool)) (roster : List String)
        (oc : String → CheckOutcome),
      dmem "_all_failed"
        (processLiveStatus cfg now rec
          (check_all_streamers_parallel clients roster oc).1 stab []).1
        = true) := by
  constructor
  · intro clients roster oc
    constructor
    · exact ⟨_, by

        unfold check_all_streamers_parallel
        exact dget?_dset_self _ _ _⟩
    · intro u hu
      apply dget?_isSome_of_mem
      unfold check_all_streamers_parallel
      exact dmem_dset_of_mem (checkLoop_roster_mem oc roster [] clients u hu) _ _
  · intro cfg now rec stab clients roster oc
    have hmem : dmem "_all_failed"
        (check_all_streamers_parallel clients roster oc).1 = true := by
      unfold check_all_streamers_parallel
      exact dmem_dset_self _ _ _
    rcases dget?_isSome_of_mem hmem with ⟨b, hb⟩
    exact processLiveStatus_dmem cfg now rec _ stab [] ("_all_failed", b)
      (dget?_some_mem hb)

/-! ### Interleaving model of the recorder's operations

The recorder runs on a single cooperative event loop. Each step below is one
synchronous (await-free) segment of the source, so an interleaved execution
of concurrent coroutines is a sequence of these steps. `invokeStart` is the
synchronous prefix of `start_recording` up to and including the slot
reservation; `commitStart` / `failStart` are the two possible continuations
of an in-flight start after its awaits (commit of the full recording info,
or the exception handler's rollback); the remaining events are the other
entry points of the recorder. The event handlers registered on a user's
client are never deregistered by the source, so `disconnect`/`liveEnd`
events are modelled as deliverable at any point. -/

/-- One scheduling event on the recorder. -/
inductive RecEvent where
  | invokeStart (u : String)
  | commitStart (u : String) (now : Int)
  | failStart (u : String)
  | stop (u : String) (reason : String) (env : StopEnv)
  | liveEnd (u : String) (env : StopEnv)
  | disconnect (u : String) (now : Int)
  | wake (u : String) (poll : PollOutcome) (env : StopEnv)
deriving Repr, DecidableEq

/-- Recorder state plus the set of starts whose reservation is in flight. -/
structure RecSysState where
  recorder : RecorderState
  inflight : List String
deriving Repr, DecidableEq

/-- The initial recorder system state. -/
def recInit : RecSysState := ⟨⟨[], [], []⟩, []⟩

/-- One interleaving step. `commitStart`/`failStart` apply only to an
in-flight start; the push-event steps apply the handlers exactly as written
in the source (in particular `disconnect` performs no check against
`active_recordings`). -/
def recStepFull (max_concurrent : Nat) (s : RecSysState) (e : RecEvent) :
    RecSysState :=
  match e with
  | .invokeStart u =>
    match start_sync max_concurrent s.recorder u with
    | (.reserved, st1) => ⟨st1, u :: s.inflight⟩
    | (_, st1) => ⟨st1, s.inflight⟩
  | .commitStart u now =>
    if s.inflight.contains u then
      ⟨{ s.recorder with
          active_recordings := (dset u (RecordingEntry.committed now true)
            s.recorder.active_recordings)
          csv_writers := s.recorder.csv_writers ++ [u] },
        s.inflight.erase u⟩
    else s
  | .failStart u =>
    if s.inflight.contains u then
      ⟨{ s.recorder with
          active_recordings := (ddel u s.recorder.active_recordings)
          csv_writers := (csvDel u s.recorder.csv_writers) },
        s.inflight.erase u⟩
    else s
  | .stop u reason env => ⟨(stop_recording s.recorder u reason env).2.1, s.inflight⟩
  | .liveEnd u env => ⟨(on_live_end s.recorder u env).2.1, s.inflight⟩
  | .disconnect u now => ⟨on_disconnect s.recorder u now, s.inflight⟩
  | .wake u poll env => ⟨(handleDisconnectWake s.recorder u poll env).1, s.inflight⟩

/-- The state after an interleaved trace of recorder events. -/
def recRun (max_concurrent : Nat) (trace : List RecEvent) : RecSysState :=
  trace.foldl (recStepFull max_concurrent) recInit

/-- What a `stop_recording` call can do to the state: leave it unchanged
(no active recording), or delete the pending-disconnect entry for the user
and either leave the active set unchanged (the `{}` placeholder raises
before the `finally`) or — when the entry is a committed session — delete
the user's active entry. -/
theorem stop_recording_state (st : RecorderState) (u : String) (reason : String)
    (env : StopEnv) :
    (stop_recording st u reason env).2.1 = st ∨
    ((stop_recording st u reason env).2.1.pending_disconnects =
        ddel u st.pending_disconnects ∧
      ((stop_recording st u reason env).2.1.active_recordings =
          st.active_recordings ∨
        ((∃ t r, dget? u st.active_recordings =
            some (RecordingEntry.committed t r)) ∧
          (stop_recording st u reason env).2.1.active_recordings =
            ddel u st.active_recordings))) := by
  unfold stop_recording
  by_cases hmem : dmem u st.active_recordings = false
  · left
    simp [hmem]
  · right
    have hmem1 : dmem u st.active_recordings = true := by
      cases h : dmem u st.active_recordings
      · exact absurd h hmem
      · rfl
    have hpd : (if dmem u st.pending_disconnects then ddel u st.pending_disconnects
        else st.pending_disconnects) = ddel u st.pending_disconnects := by
      by_cases hpm : dmem u st.pending_disconnects
      · simp [hpm]
      · have hf : dmem u st.pending_disconnects = false := by simpa using hpm
        simp [hpm, ddel_of_not_mem hf]
    cases hget : dget? u st.active_recordings with
    | none =>
      refine ⟨?_, Or.inl ?_⟩ <;> simp [hmem1, hget, hpd]
    | some v =>
      cases v with
      | placeholder =>
        refine ⟨?_, Or.inl ?_⟩ <;> simp [hmem1, hget, hpd]
      | committed t r =>
        refine ⟨?_, Or.inr ⟨⟨t, r, rfl⟩, ?_⟩⟩ <;>
          (by_cases h1 : env.raise_before_csv <;>
            by_cases h2 : env.raise_after_csv <;>
              simp [hmem1, hget, hpd, h1, h2, ddel_dset_self])

/-- The handler `on_live_end` always removes the user's pending-disconnect entry, and
either leaves the active set unchanged (no stoppable session) or removes
the user's committed session. -/
theorem on_live_end_state (st : RecorderState) (u : String) (env : StopEnv) :
    (on_live_end st u env).2.1.pending_disconnects =
      ddel u st.pending_disconnects ∧
    ((on_live_end st u env).2.1.active_recordings = st.active_recordings ∨
      ((∃ t r, dget? u st.active_recordings =
          some (RecordingEntry.committed t r)) ∧
        (on_live_end st u env).2.1.active_recordings =
          ddel u st.active_recordings)) := by
  unfold on_live_end
  have hpd : (if dmem u st.pending_disconnects then ddel u st.pending_disconnects
      else st.pending_disconnects) = ddel u st.pending_disconnects := by
    by_cases hpm : dmem u st.pending_disconnects
    · simp [hpm]
    · have hf : dmem u st.pending_disconnects = false := by simpa using hpm
      simp [hpm, ddel_of_not_mem hf]
  rw [hpd]
  rcases stop_recording_state
      ⟨st.active_recordings, ddel u st.pending_disconnects, st.csv_writers⟩
      u "live_end_event" env with h | ⟨hp, ha⟩
  · rw [h]
    exact ⟨rfl, Or.inl rfl⟩
  · refine ⟨?_, ?_⟩
    · rw [hp]
      exact ddel_of_not_mem (dmem_ddel_self u st.pending_disconnects)
    · simpa using ha

/-- The wake of a disconnect-confirmation task always removes the user's
pending-disconnect entry, and either leaves the active set unchanged or
removes the user's committed session (when the re-poll reports offline or
raises). -/
theorem handleDisconnectWake_state (st : RecorderState) (u : String)
    (poll : PollOutcome) (env : StopEnv) :
    (handleDisconnectWake st u poll env).1.pending_disconnects =
      ddel u st.pending_disconnects ∧
    ((handleDisconnectWake st u poll env).1.active_recordings =
        st.active_recordings ∨
      ((∃ t r, dget? u st.active_recordings =
          some (RecordingEntry.committed t r)) ∧
        (handleDisconnectWake st u poll env).1.active_recordings =
          ddel u st.active_recordings)) := by
  unfold handleDisconnectWake
  have hnorm : ∀ (s1 : RecorderState),
      (if dmem u s1.pending_disconnects then ddel u s1.pending_disconnects
        else s1.pending_disconnects) = ddel u s1.pending_disconnects := by
    intro s1
    by_cases hpm : dmem u s1.pending_disconnects
    · simp [hpm]
    · have hf : dmem u s1.pending_disconnects = false := by simpa using hpm
      simp [hpm, ddel_of_not_mem hf]
  by_cases hguard : dmem u st.pending_disconnects && dmem u st.active_recordings
  · cases poll with
    | live =>
      simp only [hguard, if_true]
      exact ⟨hnorm st, Or.inl (by simp)⟩
    | offline =>
      simp only [hguard, if_true]
      rcases stop_recording_state st u "disconnect_confirmed" env with h | ⟨hp, ha⟩
      · rw [h]
        exact ⟨hnorm st, Or.inl rfl⟩
      · constructor
        · rw [hnorm _, hp]
          exact ddel_of_not_mem (dmem_ddel_self u st.pending_disconnects)
        · exact ha
    | pollRaises =>
      simp only [hguard, if_true]
      rcases stop_recording_state st u "disconnect_error" env with h | ⟨hp, ha⟩
      · rw [h]
        exact ⟨hnorm st, Or.inl rfl⟩
      · constructor
        · rw [hnorm _, hp]
          exact ddel_of_not_mem (dmem_ddel_self u st.pending_disconnects)
        · exact ha
  · simp only [hguard]
    simp only [Bool.false_eq_true, if_false]
    exact ⟨hnorm st, Or.inl (by simp)⟩

/-! ### C1: the concurrency cap under interleaved starts -/

/-! ### C1: the concurrency cap under interleaved starts -/

/-- Invariant for start-only traces: the active set never exceeds the cap,
every in-flight start holds its reserved slot, and no entity has two starts
in flight. -/
def capInv (max_concurrent : Nat) (s : RecSysState) : Prop :=
  s.recorder.active_recordings.length ≤ max_concurrent ∧
  (∀ u ∈ s.inflight, dmem u s.recorder.active_recordings = true) ∧
  s.inflight.Nodup

/-- Whether an event is one of the three phases of a `start_recording`
invocation. -/
def isStartEvent : RecEvent → Prop
  | .invokeStart _ => True
  | .commitStart _ _ => True
  | .failStart _ => True
  | _ => False

theorem capInv_init (max_concurrent : Nat) : capInv max_concurrent recInit := by
  refine ⟨by simp [recInit], by simp [recInit], by simp [recInit]⟩

theorem capInv_step {max_concurrent : Nat} {s : RecSysState}
    (hinv : capInv max_concurrent s) {e : RecEvent} (he : isStartEvent e) :
    capInv max_concurrent (recStepFull max_concurrent s e) := by
  obtain ⟨hlen, hres, hnd⟩ := hinv
  cases e with
  | invokeStart u =>
    unfold recStepFull start_sync
    by_cases h1 : dmem u s.recorder.active_recordings
    · simpa [h1] using ⟨hlen, hres, hnd⟩
    · by_cases h2 : max_concurrent ≤ s.recorder.active_recordings.length
      · simpa [h1, h2] using ⟨hlen, hres, hnd⟩
      · have h1f : dmem u s.recorder.active_recordings = false := by
          simpa using h1
        have hnotin : u ∉ s.inflight := by
          intro hc
          rw [hres u hc] at h1f
          exact Bool.noConfusion h1f
        refine ⟨?_, ?_, ?_⟩
        · simp only [h1f, h2]
          simp only [Bool.false_eq_true, if_false, if_neg h2]
          rw [length_dset_of_not_mem h1f]
          omega
        · intro v hv
          simp only [h1f, h2] at hv ⊢
          simp only [Bool.false_eq_true, if_false, if_neg h2] at hv ⊢
          rcases List.mem_cons.mp hv with hveq | hv
          · subst hveq
            exact dmem_dset_self v _ _
          · exact dmem_dset_of_mem (hres v hv) u _
        · simp only [h1f, h2]
          simp only [Bool.false_eq_true, if_false, if_neg h2]
          exact List.Nodup.cons hnotin hnd
  | commitStart u now =>
    unfold recStepFull
    by_cases hin : u ∈ s.inflight
    · have humem : dmem u s.recorder.active_recordings = true := hres u hin
      simp only [List.contains, List.elem_eq_mem, decide_eq_true_eq, hin, if_true]
      refine ⟨?_, ?_, List.Nodup.erase u hnd⟩
      · rw [length_dset_of_mem humem]
        exact hlen
      · intro v hv
        exact dmem_dset_of_mem (hres v (List.mem_of_mem_erase hv)) u _
    · simp only [List.contains, List.elem_eq_mem, decide_eq_true_eq, hin, if_false]
      exact ⟨hlen, hres, hnd⟩
  | failStart u =>
    unfold recStepFull
    by_cases hin : u ∈ s.inflight
    · simp only [List.contains, List.elem_eq_mem, decide_eq_true_eq, hin, if_true]
      refine ⟨?_, ?_, List.Nodup.erase u hnd⟩
      · exact Nat.le_trans (length_ddel_le u _) hlen
      · intro v hv
        have hvne : v ≠ u := ((List.Nodup.mem_erase_iff hnd).mp hv).1
        rw [dmem_ddel_other hvne]
        exact hres v (List.mem_of_mem_erase hv)
    · simp only [List.contains, List.elem_eq_mem, decide_eq_true_eq, hin, if_false]
      exact ⟨hlen, hres, hnd⟩
  | stop u reason env => exact absurd he (by simp [isStartEvent])
  | liveEnd u env => exact absurd he (by simp [isStartEvent])
  | disconnect u now => exact absurd he (by simp [isStartEvent])
  | wake u poll env => exact absurd he (by simp [isStartEvent])

/-- C1: over every interleaved trace of `start_recording` invocations (the
reserve / commit / rollback phases of distinct concurrent calls in any
order), the active-recording set never exceeds `max_concurrent_recordings`;
and a call made while the active set is at (or beyond) the cap for an entity
not already active returns failure — the logged "Max concurrent recordings
reached" attempt — and leaves the whole state unchanged. -/
theorem c1_capacity_cap (max_concurrent : Nat) (trace : List RecEvent)
    (hstart : ∀ e ∈ trace, isStartEvent e) :
    (recRun max_concurrent trace).recorder.active_recordings.length
      ≤ max_concurrent ∧
    (∀ (st : RecorderState) (u : String) (now : Int) (run : StartRun),
      dmem u st.active_recordings = false →
      max_concurrent ≤ st.active_recordings.length →
      start_recording max_concurrent st u now run =
        (false, st, [Action.startFailedLog u "Max concurrent recordings reached"])) := by
  constructor
  · have key : ∀ (tr : List RecEvent) (s : RecSysState),
        capInv max_concurrent s → (∀ e ∈ tr, isStartEvent e) →
        capInv max_concurrent (tr.foldl (recStepFull max_concurrent) s) := by
      intro tr
      induction tr with
      | nil => intro s hs _; simpa using hs
      | cons e tl ih =>
        intro s hs hall
        simp only [List.foldl_cons]
        exact ih _ (capInv_step hs (hall e (List.mem_cons_self e tl)))
          (fun x hx => hall x (List.mem_cons_of_mem e hx))
    exact (key trace recInit (capInv_init max_concurrent) hstart).1
  · intro st u now run hmem hcap
    unfold start_recording start_sync
    simp [hmem, hcap]

/-- Concrete instantiation of the C1 theorem: with a cap of 1, interleaved
reservations for "a" and "b" (where "b" is rejected) followed by "a"'s
commit keep the active set at one entry, and a start for "b" against the
full set is rejected unchanged. -/
theorem c1_capacity_cap_witness :
    (recRun 1 [RecEvent.invokeStart "a", RecEvent.invokeStart "b",
        RecEvent.commitStart "a" 0]).recorder.active_recordings.length ≤ 1 ∧
    start_recording 1 ⟨[("a", RecordingEntry.committed 0 true)], [], ["a"]⟩
        "b" 5 StartRun.ok =
      (false, ⟨[("a", RecordingEntry.committed 0 true)], [], ["a"]⟩,
        [Action.startFailedLog "b" "Max concurrent recordings reached"]) := by
  have h := c1_capacity_cap 1
    [RecEvent.invokeStart "a", RecEvent.invokeStart "b",
      RecEvent.commitStart "a" 0] (by intro e he; fin_cases he <;> simp [isStartEvent])
  exact ⟨h.1, h.2 ⟨[("a", RecordingEntry.committed 0 true)], [], ["a"]⟩
    "b" 5 StartRun.ok (by decide) (by decide)⟩

/-! ### C5: sessions and pending disconnects -/

/-- C5 counterexample: the claimed invariant "never a PendingDisconnect
without a RecordingSession" fails in a reachable state of the faithful
model: start and commit a recording for "a", stop it, then deliver a push
disconnect event for "a" (the handlers registered on "a"'s client are never
deregistered, and `on_disconnect` checks only `pending_disconnects`) — the
resulting state has a PendingDisconnect for "a" and no entry in the active
set. -/
theorem c5_counterexample :
    dmem "a" (recRun 1 [RecEvent.invokeStart "a", RecEvent.commitStart "a" 0,
        RecEvent.stop "a" "manual" stopEnvOk,
        RecEvent.disconnect "a" 10]).recorder.pending_disconnects = true ∧
    dmem "a" (recRun 1 [RecEvent.invokeStart "a", RecEvent.commitStart "a" 0,
        RecEvent.stop "a" "manual" stopEnvOk,
        RecEvent.disconnect "a" 10]).recorder.active_recordings = false := by
  decide

/-- The interleaving step under the amended delivery discipline: a push
disconnect event is delivered only for an entity that currently holds a
committed RecordingSession (the spec's "created when a push 'disconnected'
signal arrives while a RecordingSession exists"); every other event behaves
exactly as in the faithful model. -/
def recStepGuarded (max_concurrent : Nat) (s : RecSysState) (e : RecEvent) :
    RecSysState :=
  match e with
  | .disconnect u now =>
    match dget? u s.recorder.active_recordings with
    | some (RecordingEntry.committed _ _) =>
      ⟨on_disconnect s.recorder u now, s.inflight⟩
    | _ => s
  | e1 => recStepFull max_concurrent s e1

/-- The invariant maintained under the amended delivery discipline. -/
def sessionInv (s : RecSysState) : Prop :=
  (dkeys s.recorder.active_recordings).Nodup ∧
  (dkeys s.recorder.pending_disconnects).Nodup ∧
  (∀ u, dmem u s.recorder.pending_disconnects = true →
    ∃ t r, dget? u s.recorder.active_recordings =
      some (RecordingEntry.committed t r)) ∧
  (∀ u ∈ s.inflight, dget? u s.recorder.active_recordings =
    some RecordingEntry.placeholder) ∧
  s.inflight.Nodup

/-- A state change of the "remove u from pending, and keep or remove u's
committed session" shape preserves the invariant. -/
theorem sessionInv_removal {s : RecSysState} (hinv : sessionInv s)
    (st1 : RecorderState) (u : String)
    (hpend : st1.pending_disconnects = ddel u s.recorder.pending_disconnects)
    (hact : st1.active_recordings = s.recorder.active_recordings ∨
      ((∃ t r, dget? u s.recorder.active_recordings =
          some (RecordingEntry.committed t r)) ∧
        st1.active_recordings = ddel u s.recorder.active_recordings)) :
    sessionInv ⟨st1, s.inflight⟩ := by
  obtain ⟨h1, h2, h3, h4, h5⟩ := hinv
  refine ⟨?_, ?_, ?_, ?_, h5⟩
  · rcases hact with h | ⟨_, h⟩
    · rw [h]; exact h1
    · rw [h]; exact dkeys_nodup_ddel h1
  · rw [hpend]
    exact dkeys_nodup_ddel h2
  · intro v hv
    rw [hpend] at hv
    by_cases hvu : v = u
    · subst hvu
      rw [dmem_ddel_self] at hv
      exact Bool.noConfusion hv
    · rw [dmem_ddel_other hvu] at hv
      rcases h3 v hv with ⟨t, r, hget⟩
      rcases hact with h | ⟨_, h⟩
      · rw [h]; exact ⟨t, r, hget⟩
      · rw [h, dget?_ddel_other hvu]; exact ⟨t, r, hget⟩
  · intro v hv
    rcases hact with h | ⟨⟨t, r, hu⟩, h⟩
    · rw [h]; exact h4 v hv
    · have hvu : v ≠ u := by
        intro hc
        subst hc
        rw [h4 v hv] at hu
        exact Option.noConfusion hu (fun he => RecordingEntry.noConfusion he)
      rw [h, dget?_ddel_other hvu]
      exact h4 v hv

theorem sessionInv_init : sessionInv recInit := by
  refine ⟨?_, ?_, ?_, ?_, ?_⟩ <;> simp [recInit, dkeys, dmem]

theorem sessionInv_step {max_concurrent : Nat} {s : RecSysState}
    (hinv : sessionInv s) (e : RecEvent) :
    sessionInv (recStepGuarded max_concurrent s e) := by
  obtain ⟨h1, h2, h3, h4, h5⟩ := hinv
  cases e with
  | invokeStart u =>
    by_cases hm : dmem u s.recorder.active_recordings
    · have hstep : recStepGuarded max_concurrent s (RecEvent.invokeStart u) = s := by
        show recStepFull max_concurrent s (RecEvent.invokeStart u) = s
        unfold recStepFull start_sync
        simp [hm]
      rw [hstep]
      exact ⟨h1, h2, h3, h4, h5⟩
    · have hmf : dmem u s.recorder.active_recordings = false := by
        simpa using hm
      by_cases hcap : max_concurrent ≤ s.recorder.active_recordings.length
      · have hstep : recStepGuarded max_concurrent s (RecEvent.invokeStart u) = s := by
          show recStepFull max_concurrent s (RecEvent.invokeStart u) = s
          unfold recStepFull start_sync
          simp [hmf, hcap]
        rw [hstep]
        exact ⟨h1, h2, h3, h4, h5⟩
      · have hnotin : u ∉ s.inflight := by
          intro hc
          have hx := dmem_eq_true_of_get (h4 u hc)
          rw [hmf] at hx
          exact Bool.noConfusion hx
        have hstep : recStepGuarded max_concurrent s (RecEvent.invokeStart u) =
            ⟨⟨dset u RecordingEntry.placeholder s.recorder.active_recordings,
              s.recorder.pending_disconnects, s.recorder.csv_writers⟩,
              u :: s.inflight⟩ := by
          show recStepFull max_concurrent s (RecEvent.invokeStart u) = _
          unfold recStepFull start_sync
          simp [hmf, hcap]
        rw [hstep]
        refine ⟨dkeys_nodup_dset h1, h2, ?_, ?_, List.Nodup.cons hnotin h5⟩
        · intro v hv
          have hv2 : dmem v s.recorder.pending_disconnects = true := hv
          rcases h3 v hv2 with ⟨t, r, hget⟩
          have hvu : v ≠ u := by
            intro hc
            subst hc
            rw [dmem_eq_true_of_get hget] at hmf
            exact Bool.noConfusion hmf
          exact ⟨t, r, (dget?_dset_other hvu _ _).trans hget⟩
        · intro v hv
          have hv2 : v ∈ u :: s.inflight := hv
          rcases List.mem_cons.mp hv2 with hveq | hv3
          · subst hveq
            exact dget?_dset_self v _ _
          · have hvu : v ≠ u := by
              intro hc
              subst hc
              exact hnotin hv3
            exact (dget?_dset_other hvu _ _).trans (h4 v hv3)
  | commitStart u now =>
    by_cases hin : u ∈ s.inflight
    · have hstep : recStepGuarded max_concurrent s (RecEvent.commitStart u now) =
          ⟨⟨dset u (RecordingEntry.committed now true) s.recorder.active_recordings,
            s.recorder.pending_disconnects, s.recorder.csv_writers ++ [u]⟩,
            s.inflight.erase u⟩ := by
        show recStepFull max_concurrent s (RecEvent.commitStart u now) = _
        unfold recStepFull
        simp [List.contains, hin]
      rw [hstep]
      refine ⟨dkeys_nodup_dset h1, h2, ?_, ?_, List.Nodup.erase u h5⟩
      · intro v hv
        have hv2 : dmem v s.recorder.pending_disconnects = true := hv
        by_cases hvu : v = u
        · subst hvu
          exact ⟨now, true, dget?_dset_self v _ _⟩
        · rcases h3 v hv2 with ⟨t, r, hget⟩
          exact ⟨t, r, (dget?_dset_other hvu _ _).trans hget⟩
      · intro v hv
        have hv2 : v ∈ s.inflight.erase u := hv
        have hvu : v ≠ u := ((List.Nodup.mem_erase_iff h5).mp hv2).1
        exact (dget?_dset_other hvu _ _).trans (h4 v (List.mem_of_mem_erase hv2))
    · have hstep : recStepGuarded max_concurrent s (RecEvent.commitStart u now) = s := by
        show recStepFull max_concurrent s (RecEvent.commitStart u now) = s
        unfold recStepFull
        simp [List.contains, hin]
      rw [hstep]
      exact ⟨h1, h2, h3, h4, h5⟩
  | failStart u =>
    by_cases hin : u ∈ s.inflight
    · have hstep : recStepGuarded max_concurrent s (RecEvent.failStart u) =
          ⟨⟨ddel u s.recorder.active_recordings,
            s.recorder.pending_disconnects, csvDel u s.recorder.csv_writers⟩,
            s.inflight.erase u⟩ := by
        show recStepFull max_concurrent s (RecEvent.failStart u) = _
        unfold recStepFull
        simp [List.contains, hin]
      rw [hstep]
      refine ⟨dkeys_nodup_ddel h1, h2, ?_, ?_, List.Nodup.erase u h5⟩
      · intro v hv
        have hv2 : dmem v s.recorder.pending_disconnects = true := hv
        rcases h3 v hv2 with ⟨t, r, hget⟩
        have hvu : v ≠ u := by
          intro hc
          subst hc
          rw [h4 v hin] at hget
          simp at hget
        exact ⟨t, r, (dget?_ddel_other hvu _).trans hget⟩
      · intro v hv
        have hv2 : v ∈ s.inflight.erase u := hv
        have hvu : v ≠ u := ((List.Nodup.mem_erase_iff h5).mp hv2).1
        exact (dget?_ddel_other hvu _).trans (h4 v (List.mem_of_mem_erase hv2))
    · have hstep : recStepGuarded max_concurrent s (RecEvent.failStart u) = s := by
        show recStepFull max_concurrent s (RecEvent.failStart u) = s
        unfold recStepFull
        simp [List.contains, hin]
      rw [hstep]
      exact ⟨h1, h2, h3, h4, h5⟩
  | stop u reason env =>
    show sessionInv ⟨(stop_recording s.recorder u reason env).2.1, s.inflight⟩
    rcases stop_recording_state s.recorder u reason env with h | ⟨hp, ha⟩
    · rw [h]
      exact ⟨h1, h2, h3, h4, h5⟩
    · exact sessionInv_removal ⟨h1, h2, h3, h4, h5⟩ _ u hp ha
  | liveEnd u env =>
    show sessionInv ⟨(on_live_end s.recorder u env).2.1, s.inflight⟩
    obtain ⟨hp, ha⟩ := on_live_end_state s.recorder u env
    exact sessionInv_removal ⟨h1, h2, h3, h4, h5⟩ _ u hp ha
  | disconnect u now =>
    cases hget : dget? u s.recorder.active_recordings with
    | none =>
      have hstep : recStepGuarded max_concurrent s (RecEvent.disconnect u now)
          = s := by
        simp only [recStepGuarded]
        rw [hget]
      rw [hstep]
      exact ⟨h1, h2, h3, h4, h5⟩
    | some v =>
      cases v with
      | placeholder =>
        have hstep : recStepGuarded max_concurrent s (RecEvent.disconnect u now)
            = s := by
          simp only [recStepGuarded]
          rw [hget]
        rw [hstep]
        exact ⟨h1, h2, h3, h4, h5⟩
      | committed t r =>
        have hstep : recStepGuarded max_concurrent s (RecEvent.disconnect u now)
            = ⟨on_disconnect s.recorder u now, s.inflight⟩ := by
          simp only [recStepGuarded]
          rw [hget]
        rw [hstep]
        show sessionInv ⟨on_disconnect s.recorder u now, s.inflight⟩
        unfold on_disconnect
        by_cases hpm : dmem u s.recorder.pending_disconnects
        · rw [if_pos hpm]
          exact ⟨h1, h2, h3, h4, h5⟩
        · rw [if_neg hpm]
          refine ⟨h1, dkeys_nodup_dset h2, ?_, h4, h5⟩
          intro v hv
          have hv2 : dmem v (dset u ⟨now⟩ s.recorder.pending_disconnects)
              = true := hv
          by_cases hvu : v = u
          · subst hvu
            exact ⟨t, r, hget⟩
          · rw [dmem_dset_other hvu] at hv2
            exact h3 v hv2
  | wake u poll env =>
    show sessionInv ⟨(handleDisconnectWake s.recorder u poll env).1, s.inflight⟩
    obtain ⟨hp, ha⟩ := handleDisconnectWake_state s.recorder u poll env
    exact sessionInv_removal ⟨h1, h2, h3, h4, h5⟩ _ u hp ha

/-- The state after a guarded interleaved trace. -/
def recRunGuarded (max_concurrent : Nat) (trace : List RecEvent) : RecSysState :=
  trace.foldl (recStepGuarded max_concurrent) recInit

/-- C5 (amended): in every state reachable by interleaved recorder
operations in which push disconnect events are delivered only to entities
holding a committed RecordingSession, every entity has at most one
RecordingSession and at most one PendingDisconnect, and an entity never has
a PendingDisconnect without an entry in the active-recording set. (Without
that delivery discipline the third clause is false — see the counterexample:
`on_disconnect` itself performs no check against the active set.) -/
theorem c5_amended_invariant (max_concurrent : Nat) (trace : List RecEvent) :
    (∀ u, (dkeys (recRunGuarded max_concurrent
      trace).recorder.active_recordings).count u ≤ 1) ∧
    (∀ u, (dkeys (recRunGuarded max_concurrent
      trace).recorder.pending_disconnects).count u ≤ 1) ∧
    (∀ u, dmem u (recRunGuarded max_concurrent
        trace).recorder.pending_disconnects = true →
      dmem u (recRunGuarded max_concurrent
        trace).recorder.active_recordings = true) := by
  have key : ∀ (tr : List RecEvent) (s : RecSysState), sessionInv s →
      sessionInv (tr.foldl (recStepGuarded max_concurrent) s) := by
    intro tr
    induction tr with
    | nil => intro s hs; simpa using hs
    | cons e tl ih =>
      intro s hs
      simp only [List.foldl_cons]
      exact ih _ (sessionInv_step hs e)
  obtain ⟨h1, h2, h3, _, _⟩ := key trace recInit sessionInv_init
  refine ⟨count_le_one_of_nodup h1, count_le_one_of_nodup h2, ?_⟩
  intro u hu
  rcases h3 u hu with ⟨t, r, hget⟩
  exact dmem_eq_true_of_get hget

/-- Concrete instantiation of the amended C5 theorem: after a start, commit
and disconnect for "a", the pending entry for "a" coexists with its session. -/
theorem c5_amended_invariant_witness :
    dmem "a" (recRunGuarded 1 [RecEvent.invokeStart "a",
        RecEvent.commitStart "a" 0,
        RecEvent.disconnect "a" 5]).recorder.active_recordings = true :=
  (c5_amended_invariant 1 [RecEvent.invokeStart "a", RecEvent.commitStart "a" 0,
    RecEvent.disconnect "a" 5]).2.2 "a" (by decide)

/-- Concrete instantiation of the C10 theorem. -/
theorem c10_sentinel_fed_to_tracker_witness :
    (∃ b, dget? "a" (check_all_streamers_parallel [] ["a"]
        (fun _ => CheckOutcome.success true)).1 = some b) ∧
    dmem "_all_failed"
      (processLiveStatus ⟨3, 90⟩ 0 ⟨[], [], []⟩
        (check_all_streamers_parallel [] ["a"]
          (fun _ => CheckOutcome.success true)).1 [] []).1 = true :=
  ⟨(c10_sentinel_fed_to_tracker.1 [] ["a"] (fun _ => CheckOutcome.success true)).2
      "a" (by decide),
    c10_sentinel_fed_to_tracker.2 ⟨3, 90⟩ 0 ⟨[], [], []⟩ [] [] ["a"]
      (fun _ => CheckOutcome.success true)⟩

end TikTokMon
